import Mathlib

/-!
Verification of the pipager radio driver (`src/main.py`): a shallow embedding
of the register-level behaviour of `Board.__init__` (chip initialization) and
`Board.send_message` (FIFO streaming transmit loop), together with proofs of
the specified properties.

The serial bus is modelled as an oracle: for initialization, the byte returned
by the version read (register 0x42) and the byte returned by the op-mode
read-back (register 0x01); for the transmit loop, a function `irq : Nat → Nat`
giving the byte returned by the k-th read of the IRQ register (0x3F), counting
every `spi_read(0x3f, 1)` call in program order.  Every register access is
recorded as an `Event`; registers are identified by their address (the
high-bit "write" marker added by `spi_write` is a bus-protocol detail and not
part of the register identity).  Python float arithmetic in the frequency
computation is modelled as exact rational arithmetic; for the fixed constants
involved the truncated quotient is more than 0.19 away from the nearest
integer, so double rounding error (< 1e-8 relative) cannot change `int()`'s
result.
-/

/-- One bus transaction: a register read returning a byte, or a register
write of a payload (a one-byte write is a singleton payload, matching
`spi_write`'s wrapping of an `int` payload into a list). -/
inductive Event
  | read  (reg : Nat) (val : Nat)
  | write (reg : Nat) (payload : List Nat)
deriving DecidableEq, Repr

/-- Event is a read. -/
def isRead : Event → Bool
  | .read _ _ => true
  | .write _ _ => false

/-- Event is a write (to any register). -/
def isWrite : Event → Bool
  | .read _ _ => false
  | .write _ _ => true

/-- Event is a write to the FIFO data register 0x00. -/
def isDataWrite : Event → Bool
  | .write r _ => r == 0
  | .read _ _ => false

/-- Event is the write arming Transmit mode: value 0x03 to op-mode register
0x01 (`self.spi_write(0x01, 0x03)` at src/main.py:186). -/
def isTxArm : Event → Bool
  | .write r p => r == 1 && p == [3]
  | .read _ _ => false

/-- Payload of an op-mode register (0x01) write, if the event is one. -/
def modeWritePayload : Event → Option (List Nat)
  | .write r p => if r == 1 then some p else none
  | .read _ _ => none

/-- Payload of a FIFO data register (0x00) write, if the event is one. -/
def dataWritePayload : Event → Option (List Nat)
  | .write r p => if r == 0 then some p else none
  | .read _ _ => none

/-- Value returned by a read event, if the event is a read. -/
def readValue : Event → Option Nat
  | .read _ v => some v
  | _ => none

/-- Register of a write event, if the event is a write. -/
def writeReg : Event → Option Nat
  | .write r _ => some r
  | _ => none

/-- Number of read events in a trace. -/
def countReads (tr : List Event) : Nat := tr.countP (fun e => isRead e)

/-- Number of writes to the FIFO data register 0x00 in a trace. -/
def countDataWrites (tr : List Event) : Nat := tr.countP (fun e => isDataWrite e)

/-- Number of Transmit-mode arming writes in a trace. -/
def countTxArm (tr : List Event) : Nat := tr.countP (fun e => isTxArm e)

/-- Payload of the last write to the op-mode register 0x01 in a trace. -/
def lastModeWrite (tr : List Event) : Option (List Nat) :=
  (tr.filterMap modeWritePayload).getLast?

/-- The sequence of payloads written to the FIFO data register, in order. -/
def dataWritePayloads (tr : List Event) : List (List Nat) :=
  tr.filterMap dataWritePayload

/-- The sequence of bytes returned by reads in the trace, in order. -/
def readValues (tr : List Event) : List Nat := tr.filterMap readValue

/-- Whether the final event of a trace is a read. -/
def lastIsRead (tr : List Event) : Bool := (tr.getLast?.map isRead).getD false

/-- Python `1 if value & (1 << (7 - n)) else 0` from the IRQ-flag list
comprehension (src/main.py:166), as a Bool. -/
def flagSet (v n : Nat) : Bool := v &&& (1 <<< (7 - n)) != 0

/-- The eight IRQ-register reads one poll iteration performs: the list
comprehension at src/main.py:166 calls `self.spi_read(0x3f, 1)` once for each
bit position n = 0..7 (unrolled here).  `rc` is the global count of IRQ reads
so far. -/
def pollReads (irq : Nat → Nat) (rc : Nat) : List Event :=
  [Event.read 0x3f (irq (rc + 0)), Event.read 0x3f (irq (rc + 1)),
   Event.read 0x3f (irq (rc + 2)), Event.read 0x3f (irq (rc + 3)),
   Event.read 0x3f (irq (rc + 4)), Event.read 0x3f (irq (rc + 5)),
   Event.read 0x3f (irq (rc + 6)), Event.read 0x3f (irq (rc + 7))]

/-- Every arming write in the trace is strictly preceded by a FIFO data
write; `seen` records whether a data write has already occurred. -/
def armedOnlyAfterData : Bool → List Event → Bool
  | _, [] => true
  | seen, e :: rest =>
    if isTxArm e then seen && armedOnlyAfterData seen rest
    else armedOnlyAfterData (seen || isDataWrite e) rest

/-- The trace ends with one full poll iteration's eight IRQ reads, the
fourth of which (the one `irq_flags[3]` is taken from) has the overrun bit 4
set, and nothing — in particular no FIFO data write — follows them. -/
def endsWithOverrunPoll (tr : List Event) : Bool :=
  match tr.drop (tr.length - 8) with
  | [Event.read 63 _, Event.read 63 _, Event.read 63 _, Event.read 63 v3,
     Event.read 63 _, Event.read 63 _, Event.read 63 _, Event.read 63 _] =>
      flagSet v3 3
  | _ => false

/-- Every read in the trace targets the IRQ register 0x3F. -/
def readsOnly3F (tr : List Event) : Bool :=
  tr.all (fun e =>
    match e with
    | .read r _ => r == 0x3f
    | .write _ _ => true)

/-- The registers targeted by the write events of a trace, in order. -/
def writeRegs (tr : List Event) : List Nat := tr.filterMap writeReg

/-- The fixed writes `send_message` performs before the streaming loop
(src/main.py:146-161): FIFO threshold 0xa0, sync config off, FIFO-empty exit
condition, FIFO pointer reset, a brief RX mode (0x05) to flush the FIFO, then
Standby (0x01). -/
def sendPrepWrites : List Event :=
  [Event.write 0x35 [0xa0], Event.write 0x27 [0x0], Event.write 0x35 [0x04],
   Event.write 0x0d [0], Event.write 0x01 [0x05], Event.write 0x01 [0x01]]

/-- The streaming loop of `send_message` (src/main.py:163-189), returning the
Python return value and the suffix of the bus trace produced by the loop.
State: `nb` = `num_bytes`, `first` = `is_first_data`, `rc` = global IRQ read
count.  Each iteration issues the eight IRQ reads of the comprehension;
`fifo_full` is bit 7 of read 0 (`irq_flags[0]`), `fifo_level` bit 5 of read 2
(`irq_flags[2]`), `fifo_overrun` bit 4 of read 3 (`irq_flags[3]`).  On
overrun the function returns False at once; if full or level is set the loop
`continue`s; otherwise it writes the chunk `data[nb:nb+16]`, advances `nb` by
16, and on the first chunk only writes Transmit mode 0x03.  `fuel` bounds the
number of iterations (the Python loop has no timeout and can busy-wait
forever; running out of fuel yields `none`, meaning non-termination within
the bound). -/
def sendLoop (irq : Nat → Nat) (data : List Nat) :
    Nat → Nat → Bool → Nat → Option (Bool × List Event)
  | 0, _, _, _ => none
  | fuel + 1, nb, first, rc =>
    if nb < data.length then
      if flagSet (irq (rc + 3)) 3 then
        some (false, pollReads irq rc)
      else if flagSet (irq rc) 0 || flagSet (irq (rc + 2)) 2 then
        (sendLoop irq data fuel nb first (rc + 8)).map
          (fun r => (r.1, pollReads irq rc ++ r.2))
      else
        (sendLoop irq data fuel (nb + 16) false (rc + 8)).map
          (fun r => (r.1, pollReads irq rc ++
            (Event.write 0x00 ((data.drop nb).take 16) ::
              ((if first then [Event.write 0x01 [0x03]] else []) ++ r.2))))
    else some (true, [])

/-- `Board.send_message` (src/main.py:137-189) after the external encoder has
produced `data`: the preparation writes followed by the streaming loop.
Returns the Python Boolean result paired with the full bus trace. -/
def send_message (irq : Nat → Nat) (data : List Nat) (fuel : Nat) :
    Option (Bool × List Event) :=
  (sendLoop irq data fuel 0 true 0).map (fun r => (r.1, sendPrepWrites ++ r.2))

/-- Outcome of `Board.__init__` (src/main.py:47-135): `ok` is the normal
completion; `invalidVersion` is the early return after logging "Invalid board
version" (src/main.py:90-93); `opModeFailure` is the `ValueError` raised when
the op-mode read-back disagrees with the written value (src/main.py:103-105).
The spec's error taxonomy (§7) calls both failure outcomes
`ConfigurationFailure`. -/
inductive InitResult
  | ok
  | invalidVersion
  | opModeFailure
deriving DecidableEq, Repr

/-- Whether an initialization outcome is a `ConfigurationFailure` in the
spec's taxonomy (wrong chip version, or mode write not reflected on
read-back). -/
def InitResult.isConfigurationFailure : InitResult → Bool
  | .ok => false
  | .invalidVersion => true
  | .opModeFailure => true

/-- `fstep = 32000000.0 / 524288` (src/main.py:126), exact. -/
def fstep : ℚ := 32000000 / 524288

/-- `frf = int((439.9875 * 1000000) / fstep)` (src/main.py:127): Python
`int()` truncates toward zero; the quotient is positive, so this is the
floor. -/
def frf : Nat := (⌊(439.9875 * 1000000 : ℚ) / fstep⌋).toNat

/-- Result and bus trace of one run of `Board.__init__`, given the bus
oracle's responses. -/
structure InitRun where
  result : InitResult
  trace : List Event
deriving DecidableEq, Repr

/-- The register accesses of `Board.__init__` (src/main.py:87-135), given the
byte the bus returns for the version read of 0x42 and the byte it returns for
the op-mode read-back of 0x01.  GPIO reset pulsing and logging are not bus
register accesses and are omitted. -/
def boardInit (version opModeRead : Nat) : InitRun :=
  if version ≠ 0x12 then
    ⟨.invalidVersion, [Event.read 0x42 version]⟩
  else if opModeRead ≠ 0x08 then
    ⟨.opModeFailure,
      [Event.read 0x42 version, Event.write 0x01 [0x08],
       Event.read 0x01 opModeRead]⟩
  else
    ⟨.ok,
      [Event.read 0x42 version, Event.write 0x01 [0x08],
       Event.read 0x01 opModeRead,
       Event.write 0x01 [0x01],
       Event.write 0x02 [0x68], Event.write 0x03 [0x2B],
       Event.write 0x04 [0x00], Event.write 0x05 [0x4A],
       Event.write 0x25 [0x00], Event.write 0x26 [0x00],
       Event.write 0x06 [(frf >>> 16) &&& 0xFF],
       Event.write 0x07 [(frf >>> 8) &&& 0xFF],
       Event.write 0x08 [frf &&& 0xFF],
       Event.write 0x00 [12]]⟩

/-- The register map of spec §6: every address the driver may touch. -/
def registerMap : List Nat :=
  [0x00, 0x01, 0x02, 0x03, 0x04, 0x05, 0x06, 0x07, 0x08,
   0x0D, 0x25, 0x26, 0x27, 0x35, 0x3F, 0x42]

/-- The trace of a successful initialization run (version 0x12, op-mode
read-back 0x08). -/
def initOkTrace : List Event := (boardInit 0x12 0x08).trace

/-- A bus whose IRQ register always reads 0. -/
def irqZero : Nat → Nat := fun _ => 0

/-- A bus that raises the FIFO-overrun bit (bit 4) exactly on IRQ read 19,
which is the read `irq_flags[3]` is taken from in the third poll iteration
(reads 16-23). -/
def irqOverrun3 : Nat → Nat := fun k => if k = 19 then 0x10 else 0

/-- A 33-byte payload: three chunks, so the third poll iteration still has
data to send. -/
def dataLong : List Nat := List.replicate 33 0

/-- Concrete trace of `send_message` against `irqOverrun3` with `dataLong`:
two chunk writes, then overrun observed on the third poll. -/
def trOverrun3 : List Event :=
  ((send_message irqOverrun3 dataLong 10).map Prod.snd).getD []

/-- A 20-byte payload: one full 16-byte chunk and a 4-byte tail. -/
def dataTwenty : List Nat := List.replicate 20 7

/-- Concrete trace of `send_message` against the all-zero bus with
`dataTwenty`: two chunk writes, completing successfully. -/
def trTwenty : List Event :=
  ((send_message irqZero dataTwenty 3).map Prod.snd).getD []

/-- Concrete trace of `send_message` against the all-zero bus with a
one-byte payload: a single poll iteration, one chunk write, arming, done. -/
def trOneByte : List Event :=
  ((send_message irqZero [5] 2).map Prod.snd).getD []

/-- Concrete trace of `send_message` against the all-zero bus with the
33-byte payload: three chunk writes (16, 16, 1), completing successfully. -/
def trThree : List Event :=
  ((send_message irqZero dataLong 4).map Prod.snd).getD []

/-! Basic facts about the fixed event blocks. -/

lemma countTxArm_pollReads (irq : Nat → Nat) (rc : Nat) :
    countTxArm (pollReads irq rc) = 0 := rfl

lemma countDataWrites_pollReads (irq : Nat → Nat) (rc : Nat) :
    countDataWrites (pollReads irq rc) = 0 := rfl

lemma countReads_pollReads (irq : Nat → Nat) (rc : Nat) :
    countReads (pollReads irq rc) = 8 := rfl

lemma readValues_pollReads (irq : Nat → Nat) (rc : Nat) :
    readValues (pollReads irq rc) = (List.range 8).map (fun i => irq (rc + i)) := rfl

lemma filterMapMode_pollReads (irq : Nat → Nat) (rc : Nat) :
    (pollReads irq rc).filterMap modeWritePayload = [] := rfl

lemma dataWritePayloads_pollReads (irq : Nat → Nat) (rc : Nat) :
    dataWritePayloads (pollReads irq rc) = [] := rfl

lemma any_isDataWrite_pollReads (irq : Nat → Nat) (rc : Nat) :
    (pollReads irq rc).any (fun e => isDataWrite e) = false := rfl

lemma armedOnlyAfterData_pollReads (irq : Nat → Nat) (rc : Nat) (s : Bool) :
    armedOnlyAfterData s (pollReads irq rc) = true := by
  simp [pollReads, armedOnlyAfterData, isTxArm, isDataWrite]

lemma length_pollReads (irq : Nat → Nat) (rc : Nat) :
    (pollReads irq rc).length = 8 := rfl

lemma readsOnly3F_pollReads (irq : Nat → Nat) (rc : Nat) :
    readsOnly3F (pollReads irq rc) = true := rfl

lemma lastIsRead_pollReads (irq : Nat → Nat) (rc : Nat) :
    lastIsRead (pollReads irq rc) = true := rfl

/-! Trace-algebra helpers. -/

lemma drop_sub_append (p t : List Event) (h : 8 ≤ t.length) :
    (p ++ t).drop ((p ++ t).length - 8) = t.drop (t.length - 8) := by
  have h1 : (p ++ t).length - 8 = p.length + (t.length - 8) := by
    simp only [List.length_append]; omega
  rw [h1]
  simp [List.drop_append]

lemma endsWithOverrunPoll_append (p t : List Event) (h8 : 8 ≤ t.length)
    (h : endsWithOverrunPoll t = true) : endsWithOverrunPoll (p ++ t) = true := by
  unfold endsWithOverrunPoll at h ⊢
  rw [drop_sub_append p t h8]
  exact h

lemma lastIsRead_append (p t : List Event) (ht : lastIsRead t = true) :
    lastIsRead (p ++ t) = true := by
  have hne : t ≠ [] := by
    intro he
    rw [he] at ht
    simp [lastIsRead] at ht
  unfold lastIsRead at ht ⊢
  rw [List.getLast?_append_of_ne_nil p hne]
  exact ht

lemma isDataWrite_eq_false_of_isTxArm (e : Event) (h : isTxArm e = true) :
    isDataWrite e = false := by
  cases e with
  | read r v => rfl
  | write r pl =>
    simp only [isTxArm, Bool.and_eq_true, beq_iff_eq] at h
    simp [isDataWrite, h.1]

lemma armedOnlyAfterData_append (s : Bool) (l₁ l₂ : List Event) :
    armedOnlyAfterData s (l₁ ++ l₂) =
      (armedOnlyAfterData s l₁ &&
        armedOnlyAfterData (s || l₁.any (fun e => isDataWrite e)) l₂) := by
  induction l₁ generalizing s with
  | nil => simp [armedOnlyAfterData]
  | cons e t ih =>
    by_cases he : isTxArm e = true
    · have hd := isDataWrite_eq_false_of_isTxArm e he
      simp [armedOnlyAfterData, he, hd, ih, Bool.and_assoc]
    · simp [armedOnlyAfterData, he, ih, Bool.or_assoc]

lemma armedOnlyAfterData_of_no_arm (s : Bool) (l : List Event)
    (h : l.countP (fun e => isTxArm e) = 0) : armedOnlyAfterData s l = true := by
  induction l generalizing s with
  | nil => rfl
  | cons e t ih =>
    rw [List.countP_cons] at h
    by_cases he : isTxArm e = true
    · simp [he] at h
    · have h0 : t.countP (fun e => isTxArm e) = 0 := by
        simpa [he] using h
      simp [armedOnlyAfterData, he, ih _ h0]

lemma all_getLast?_of_all {α : Type} (L : List α) (p : α → Bool) (a : α)
    (hall : L.all p = true) (hl : L.getLast? = some a) : p a = true := by
  obtain ⟨hne, heq⟩ :=
    List.mem_getLast?_eq_getLast (Option.mem_def.mpr hl)
  have hm : a ∈ L := heq ▸ List.getLast_mem hne
  exact List.all_eq_true.mp hall a hm

lemma countTxArm_append (l₁ l₂ : List Event) :
    countTxArm (l₁ ++ l₂) = countTxArm l₁ + countTxArm l₂ :=
  List.countP_append _ _ _

lemma countDataWrites_append (l₁ l₂ : List Event) :
    countDataWrites (l₁ ++ l₂) = countDataWrites l₁ + countDataWrites l₂ :=
  List.countP_append _ _ _

lemma countReads_append (l₁ l₂ : List Event) :
    countReads (l₁ ++ l₂) = countReads l₁ + countReads l₂ :=
  List.countP_append _ _ _

lemma countTxArm_cons (e : Event) (l : List Event) :
    countTxArm (e :: l) = countTxArm l + if isTxArm e then 1 else 0 :=
  List.countP_cons _ _ _

lemma countDataWrites_cons (e : Event) (l : List Event) :
    countDataWrites (e :: l) = countDataWrites l + if isDataWrite e then 1 else 0 :=
  List.countP_cons _ _ _

/-! Invariants of the streaming loop. -/

/-- In any completed run of the loop, the Transmit-arming write occurs once
if the loop was entered with `is_first_data` true and at least one chunk was
written, and never otherwise; and it is always strictly preceded by a data
write (taking the pre-state into account via `!first`). -/
lemma sendLoop_txArm (irq : Nat → Nat) (data : List Nat) :
    ∀ (fuel nb : Nat) (first : Bool) (rc : Nat) (b : Bool) (tr : List Event),
      sendLoop irq data fuel nb first rc = some (b, tr) →
      countTxArm tr =
        (if first then (if countDataWrites tr = 0 then 0 else 1) else 0) ∧
      armedOnlyAfterData (!first) tr = true := by
  intro fuel
  induction fuel with
  | zero =>
    intro nb first rc b tr h
    simp [sendLoop] at h
  | succ n ih =>
    intro nb first rc b tr h
    simp only [sendLoop] at h
    by_cases hlen : nb < data.length
    · rw [if_pos hlen] at h
      by_cases hov : flagSet (irq (rc + 3)) 3 = true
      · rw [if_pos hov] at h
        simp only [Option.some.injEq, Prod.mk.injEq] at h
        obtain ⟨hb, htr⟩ := h
        subst htr
        refine ⟨?_, armedOnlyAfterData_pollReads irq rc (!first)⟩
        simp [countTxArm_pollReads, countDataWrites_pollReads]
      · rw [if_neg hov] at h
        by_cases hfl : (flagSet (irq rc) 0 || flagSet (irq (rc + 2)) 2) = true
        · rw [if_pos hfl, Option.map_eq_some'] at h
          obtain ⟨⟨b', tr'⟩, hrec, heq⟩ := h
          simp only [Prod.mk.injEq] at heq
          obtain ⟨hb, htr⟩ := heq
          subst hb
          subst htr
          obtain ⟨h1, h2⟩ := ih nb first (rc + 8) b' tr' hrec
          constructor
          · rw [countTxArm_append, countDataWrites_append,
              countTxArm_pollReads, countDataWrites_pollReads, h1]
            simp
          · rw [armedOnlyAfterData_append]
            rw [armedOnlyAfterData_pollReads, any_isDataWrite_pollReads]
            simpa using h2
        · rw [if_neg hfl, Option.map_eq_some'] at h
          obtain ⟨⟨b', tr'⟩, hrec, heq⟩ := h
          simp only [Prod.mk.injEq] at heq
          obtain ⟨hb, htr⟩ := heq
          subst hb
          subst htr
          obtain ⟨h1, h2⟩ := ih (nb + 16) false (rc + 8) b' tr' hrec
          simp only [Bool.not_false] at h2
          cases first with
          | false =>
            constructor
            · rw [countTxArm_append, countTxArm_pollReads]
              simp only [if_neg (by simp : ¬ false = true)] at h1 ⊢
              simp [countTxArm_cons, isTxArm, h1]
            · rw [armedOnlyAfterData_append, armedOnlyAfterData_pollReads,
                any_isDataWrite_pollReads]
              simp only [Bool.false_or, Bool.true_and, Bool.not_false]
              simp [armedOnlyAfterData, isTxArm, isDataWrite, h2]
          | true =>
            constructor
            · rw [countTxArm_append, countTxArm_pollReads]
              simp only [if_neg (by simp : ¬ false = true)] at h1
              simp [countTxArm_cons, countDataWrites_cons, countTxArm_append,
                countDataWrites_append, isTxArm, isDataWrite, h1,
                countDataWrites_pollReads]
            · rw [armedOnlyAfterData_append, armedOnlyAfterData_pollReads,
                any_isDataWrite_pollReads]
              simp [armedOnlyAfterData, isTxArm, isDataWrite, h2]
    · rw [if_neg hlen] at h
      simp only [Option.some.injEq, Prod.mk.injEq] at h
      obtain ⟨hb, htr⟩ := h
      subst htr
      refine ⟨?_, rfl⟩
      simp [countTxArm, countDataWrites]

/-- A run of the loop returning False ends with the eight reads of the poll
iteration that observed the overrun bit — nothing, in particular no FIFO
data write and no mode write, follows the overrun observation — and every
op-mode write it ever issued was the Transmit-arming value 0x03. -/
lemma sendLoop_false (irq : Nat → Nat) (data : List Nat) :
    ∀ (fuel nb : Nat) (first : Bool) (rc : Nat) (tr : List Event),
      sendLoop irq data fuel nb first rc = some (false, tr) →
      endsWithOverrunPoll tr = true ∧ 8 ≤ tr.length ∧ lastIsRead tr = true ∧
      (tr.filterMap modeWritePayload).all (fun p => p == [3]) = true := by
  intro fuel
  induction fuel with
  | zero =>
    intro nb first rc tr h
    simp [sendLoop] at h
  | succ n ih =>
    intro nb first rc tr h
    simp only [sendLoop] at h
    by_cases hlen : nb < data.length
    · rw [if_pos hlen] at h
      by_cases hov : flagSet (irq (rc + 3)) 3 = true
      · rw [if_pos hov] at h
        simp only [Option.some.injEq, Prod.mk.injEq, true_and] at h
        subst h
        refine ⟨?_, by simp [length_pollReads], lastIsRead_pollReads irq rc,
          by simp [filterMapMode_pollReads]⟩
        simp [endsWithOverrunPoll, pollReads, hov]
      · rw [if_neg hov] at h
        by_cases hfl : (flagSet (irq rc) 0 || flagSet (irq (rc + 2)) 2) = true
        · rw [if_pos hfl, Option.map_eq_some'] at h
          obtain ⟨⟨b', tr'⟩, hrec, heq⟩ := h
          simp only [Prod.mk.injEq] at heq
          obtain ⟨hb, htr⟩ := heq
          subst hb
          subst htr
          obtain ⟨h1, h2, h3, h4⟩ := ih nb first (rc + 8) tr' hrec
          refine ⟨endsWithOverrunPoll_append _ _ h2 h1, ?_,
            lastIsRead_append _ _ h3, ?_⟩
          · simp only [List.length_append]; omega
          · rw [List.filterMap_append, filterMapMode_pollReads]
            simpa using h4
        · rw [if_neg hfl, Option.map_eq_some'] at h
          obtain ⟨⟨b', tr'⟩, hrec, heq⟩ := h
          simp only [Prod.mk.injEq] at heq
          obtain ⟨hb, htr⟩ := heq
          subst hb
          subst htr
          obtain ⟨h1, h2, h3, h4⟩ := ih (nb + 16) false (rc + 8) tr' hrec
          have hform :
              pollReads irq rc ++
                (Event.write 0x00 ((data.drop nb).take 16) ::
                  ((if first then [Event.write 0x01 [0x03]] else []) ++ tr')) =
              (pollReads irq rc ++
                Event.write 0x00 ((data.drop nb).take 16) ::
                  (if first then [Event.write 0x01 [0x03]] else [])) ++ tr' := by
            simp
          rw [hform]
          refine ⟨endsWithOverrunPoll_append _ _ h2 h1, ?_,
            lastIsRead_append _ _ h3, ?_⟩
          · simp only [List.length_append]; omega
          · rw [List.filterMap_append]
            cases first <;>
              simp [filterMapMode_pollReads, modeWritePayload, h4,
                List.filterMap_append]
    · rw [if_neg hlen] at h
      simp only [Option.some.injEq, Prod.mk.injEq] at h
      obtain ⟨hb, _⟩ := h
      exact absurd hb (by simp)

/-- The op-mode writes a loop run issues are exactly one Transmit-arming
write [0x03] when the loop was entered with `is_first_data` true and wrote
at least one chunk to the FIFO data register, and none at all otherwise. -/
lemma sendLoop_modeWrites (irq : Nat → Nat) (data : List Nat) :
    ∀ (fuel nb : Nat) (first : Bool) (rc : Nat) (b : Bool) (tr : List Event),
      sendLoop irq data fuel nb first rc = some (b, tr) →
      tr.filterMap modeWritePayload =
        (if first = true ∧ countDataWrites tr ≠ 0 then [[0x03]] else []) := by
  intro fuel
  induction fuel with
  | zero =>
    intro nb first rc b tr h
    simp [sendLoop] at h
  | succ n ih =>
    intro nb first rc b tr h
    simp only [sendLoop] at h
    by_cases hlen : nb < data.length
    · rw [if_pos hlen] at h
      by_cases hov : flagSet (irq (rc + 3)) 3 = true
      · rw [if_pos hov] at h
        simp only [Option.some.injEq, Prod.mk.injEq] at h
        obtain ⟨hb, htr⟩ := h
        subst htr
        rw [filterMapMode_pollReads, countDataWrites_pollReads]
        simp
      · rw [if_neg hov] at h
        by_cases hfl : (flagSet (irq rc) 0 || flagSet (irq (rc + 2)) 2) = true
        · rw [if_pos hfl, Option.map_eq_some'] at h
          obtain ⟨⟨b', tr'⟩, hrec, heq⟩ := h
          simp only [Prod.mk.injEq] at heq
          obtain ⟨hb, htr⟩ := heq
          subst hb
          subst htr
          have hi := ih nb first (rc + 8) b' tr' hrec
          rw [List.filterMap_append, filterMapMode_pollReads, List.nil_append,
            countDataWrites_append, countDataWrites_pollReads, Nat.zero_add, hi]
        · rw [if_neg hfl, Option.map_eq_some'] at h
          obtain ⟨⟨b', tr'⟩, hrec, heq⟩ := h
          simp only [Prod.mk.injEq] at heq
          obtain ⟨hb, htr⟩ := heq
          subst hb
          subst htr
          have hi := ih (nb + 16) false (rc + 8) b' tr' hrec
          rw [if_neg (by simp)] at hi
          cases first with
          | false =>
            simp [List.filterMap_append, filterMapMode_pollReads,
              List.filterMap_cons, modeWritePayload, hi]
          | true =>
            simp [List.filterMap_append, filterMapMode_pollReads,
              List.filterMap_cons, modeWritePayload, hi,
              countDataWrites_append, countDataWrites_cons,
              countDataWrites_pollReads, isDataWrite]
    · rw [if_neg hlen] at h
      simp only [Option.some.injEq, Prod.mk.injEq] at h
      obtain ⟨hb, htr⟩ := h
      subst htr
      simp [countDataWrites]

lemma readValues_append (l₁ l₂ : List Event) :
    readValues (l₁ ++ l₂) = readValues l₁ ++ readValues l₂ :=
  List.filterMap_append _ _ _

lemma readsOnly3F_append (l₁ l₂ : List Event) :
    readsOnly3F (l₁ ++ l₂) = (readsOnly3F l₁ && readsOnly3F l₂) := by
  simp [readsOnly3F]

lemma range_map_split (irq : Nat → Nat) (rc n : Nat) :
    (List.range (8 + n)).map (fun i => irq (rc + i)) =
      (List.range 8).map (fun i => irq (rc + i)) ++
        (List.range n).map (fun i => irq (rc + 8 + i)) := by
  rw [List.range_add, List.map_append, List.map_map]
  simp [Function.comp, Nat.add_assoc]

/-- Every IRQ read in a completed loop run is a fresh bus transaction: the
k-th read issued after loop entry returns `irq (rc + k)` (no value is ever
reused), reads come in whole poll iterations of eight, and all reads target
register 0x3F. -/
lemma sendLoop_reads (irq : Nat → Nat) (data : List Nat) :
    ∀ (fuel nb : Nat) (first : Bool) (rc : Nat) (b : Bool) (tr : List Event),
      sendLoop irq data fuel nb first rc = some (b, tr) →
      readValues tr = (List.range (countReads tr)).map (fun i => irq (rc + i)) ∧
      countReads tr % 8 = 0 ∧ readsOnly3F tr = true := by
  intro fuel
  induction fuel with
  | zero =>
    intro nb first rc b tr h
    simp [sendLoop] at h
  | succ n ih =>
    intro nb first rc b tr h
    simp only [sendLoop] at h
    by_cases hlen : nb < data.length
    · rw [if_pos hlen] at h
      by_cases hov : flagSet (irq (rc + 3)) 3 = true
      · rw [if_pos hov] at h
        simp only [Option.some.injEq, Prod.mk.injEq] at h
        obtain ⟨hb, htr⟩ := h
        subst htr
        exact ⟨by rw [countReads_pollReads, readValues_pollReads],
          by rw [countReads_pollReads], readsOnly3F_pollReads irq rc⟩
      · rw [if_neg hov] at h
        by_cases hfl : (flagSet (irq rc) 0 || flagSet (irq (rc + 2)) 2) = true
        · rw [if_pos hfl, Option.map_eq_some'] at h
          obtain ⟨⟨b', tr'⟩, hrec, heq⟩ := h
          simp only [Prod.mk.injEq] at heq
          obtain ⟨hb, htr⟩ := heq
          subst hb
          subst htr
          obtain ⟨h1, h2, h3⟩ := ih nb first (rc + 8) b' tr' hrec
          refine ⟨?_, ?_, ?_⟩
          · rw [readValues_append, countReads_append, countReads_pollReads,
              readValues_pollReads, range_map_split, h1]
          · rw [countReads_append, countReads_pollReads]
            omega
          · rw [readsOnly3F_append, readsOnly3F_pollReads, h3]
            rfl
        · rw [if_neg hfl, Option.map_eq_some'] at h
          obtain ⟨⟨b', tr'⟩, hrec, heq⟩ := h
          simp only [Prod.mk.injEq] at heq
          obtain ⟨hb, htr⟩ := heq
          subst hb
          subst htr
          obtain ⟨h1, h2, h3⟩ := ih (nb + 16) false (rc + 8) b' tr' hrec
          have hform :
              pollReads irq rc ++
                (Event.write 0x00 ((data.drop nb).take 16) ::
                  ((if first then [Event.write 0x01 [0x03]] else []) ++ tr')) =
              (pollReads irq rc ++
                Event.write 0x00 ((data.drop nb).take 16) ::
                  (if first then [Event.write 0x01 [0x03]] else [])) ++ tr' := by
            simp
          rw [hform]
          have hpre : readValues
              (pollReads irq rc ++
                Event.write 0x00 ((data.drop nb).take 16) ::
                  (if first then [Event.write 0x01 [0x03]] else [])) =
              (List.range 8).map (fun i => irq (rc + i)) := by
            cases first <;> rfl
          have hcnt : countReads
              (pollReads irq rc ++
                Event.write 0x00 ((data.drop nb).take 16) ::
                  (if first then [Event.write 0x01 [0x03]] else [])) = 8 := by
            cases first <;> rfl
          have hro : readsOnly3F
              (pollReads irq rc ++
                Event.write 0x00 ((data.drop nb).take 16) ::
                  (if first then [Event.write 0x01 [0x03]] else [])) = true := by
            cases first <;> rfl
          refine ⟨?_, ?_, ?_⟩
          · rw [readValues_append, countReads_append, hpre, hcnt,
              range_map_split, h1]
          · rw [countReads_append, hcnt]
            omega
          · rw [readsOnly3F_append, hro, h3]
            rfl
    · rw [if_neg hlen] at h
      simp only [Option.some.injEq, Prod.mk.injEq] at h
      obtain ⟨hb, htr⟩ := h
      subst htr
      exact ⟨rfl, rfl, rfl⟩

lemma dataWritePayloads_append (l₁ l₂ : List Event) :
    dataWritePayloads (l₁ ++ l₂) = dataWritePayloads l₁ ++ dataWritePayloads l₂ :=
  List.filterMap_append _ _ _

/-- A run of the loop returning True writes exactly the chunks
`data[nb:nb+16], data[nb+16:nb+32], ...` to the FIFO data register: their
concatenation is `data.drop nb`, no chunk at all is written exactly when no
byte remained to send, and every chunk except possibly the last is exactly
16 bytes. -/
lemma sendLoop_true (irq : Nat → Nat) (data : List Nat) :
    ∀ (fuel nb : Nat) (first : Bool) (rc : Nat) (tr : List Event),
      sendLoop irq data fuel nb first rc = some (true, tr) →
      (dataWritePayloads tr).flatten = data.drop nb ∧
      (dataWritePayloads tr = [] ↔ data.length ≤ nb) ∧
      (dataWritePayloads tr).dropLast.all (fun c => c.length == 16) = true := by
  intro fuel
  induction fuel with
  | zero =>
    intro nb first rc tr h
    simp [sendLoop] at h
  | succ n ih =>
    intro nb first rc tr h
    simp only [sendLoop] at h
    by_cases hlen : nb < data.length
    · rw [if_pos hlen] at h
      by_cases hov : flagSet (irq (rc + 3)) 3 = true
      · rw [if_pos hov] at h
        simp only [Option.some.injEq, Prod.mk.injEq] at h
        exact absurd h.1 (by simp)
      · rw [if_neg hov] at h
        by_cases hfl : (flagSet (irq rc) 0 || flagSet (irq (rc + 2)) 2) = true
        · rw [if_pos hfl, Option.map_eq_some'] at h
          obtain ⟨⟨b', tr'⟩, hrec, heq⟩ := h
          simp only [Prod.mk.injEq] at heq
          obtain ⟨hb, htr⟩ := heq
          subst hb
          subst htr
          obtain ⟨h1, h2, h3⟩ := ih nb first (rc + 8) tr' hrec
          rw [dataWritePayloads_append, dataWritePayloads_pollReads,
            List.nil_append]
          exact ⟨h1, h2, h3⟩
        · rw [if_neg hfl, Option.map_eq_some'] at h
          obtain ⟨⟨b', tr'⟩, hrec, heq⟩ := h
          simp only [Prod.mk.injEq] at heq
          obtain ⟨hb, htr⟩ := heq
          subst hb
          subst htr
          obtain ⟨h1, h2, h3⟩ := ih (nb + 16) false (rc + 8) tr' hrec
          have hform :
              pollReads irq rc ++
                (Event.write 0x00 ((data.drop nb).take 16) ::
                  ((if first then [Event.write 0x01 [0x03]] else []) ++ tr')) =
              (pollReads irq rc ++
                Event.write 0x00 ((data.drop nb).take 16) ::
                  (if first then [Event.write 0x01 [0x03]] else [])) ++ tr' := by
            simp
          rw [hform, dataWritePayloads_append]
          have hpre : dataWritePayloads
              (pollReads irq rc ++
                Event.write 0x00 ((data.drop nb).take 16) ::
                  (if first then [Event.write 0x01 [0x03]] else [])) =
              [(data.drop nb).take 16] := by
            cases first <;> rfl
          rw [hpre, List.cons_append, List.nil_append]
          refine ⟨?_, ?_, ?_⟩
          · rw [List.flatten_cons, h1, ← List.drop_drop,
              List.take_append_drop]
          · exact ⟨fun hc => (List.cons_ne_nil _ _ hc).elim,
              fun hc => ((by omega : ¬ data.length ≤ nb) hc).elim⟩
          · cases hP : dataWritePayloads tr' with
            | nil => rfl
            | cons q Q =>
              have hne : ¬ (dataWritePayloads tr' = []) := by
                rw [hP]
                simp
              have hnb : nb + 16 < data.length := by
                by_contra hc
                exact hne (h2.mpr (by omega))
              have hchunk : ((data.drop nb).take 16).length = 16 := by
                rw [List.length_take, List.length_drop]
                omega
              rw [List.dropLast_cons₂, List.all_cons]
              rw [hP] at h3
              simp [hchunk, h3]
    · rw [if_neg hlen] at h
      simp only [Option.some.injEq, Prod.mk.injEq] at h
      obtain ⟨hb, htr⟩ := h
      subst htr
      refine ⟨?_, ?_, rfl⟩
      · have hd : data.drop nb = [] := List.drop_eq_nil_of_le (by omega)
        rw [hd]
        rfl
      · simp [dataWritePayloads]
        omega

/-! Facts about the fixed preparation writes and the top-level
`send_message` wrapper. -/

lemma countTxArm_prep : countTxArm sendPrepWrites = 0 := rfl

lemma countDataWrites_prep : countDataWrites sendPrepWrites = 0 := rfl

lemma countReads_prep : countReads sendPrepWrites = 0 := rfl

lemma readValues_prep : readValues sendPrepWrites = [] := rfl

lemma filterMapMode_prep :
    sendPrepWrites.filterMap modeWritePayload = [[0x05], [0x01]] := rfl

lemma dataWritePayloads_prep : dataWritePayloads sendPrepWrites = [] := rfl

lemma any_isDataWrite_prep :
    sendPrepWrites.any (fun e => isDataWrite e) = false := rfl

lemma readsOnly3F_prep : readsOnly3F sendPrepWrites = true := rfl

lemma armedOnlyAfterData_prep :
    armedOnlyAfterData false sendPrepWrites = true := rfl

lemma send_message_eq (irq : Nat → Nat) (data : List Nat) (fuel : Nat)
    (b : Bool) (tr : List Event) (h : send_message irq data fuel = some (b, tr)) :
    ∃ tl, sendLoop irq data fuel 0 true 0 = some (b, tl) ∧
      tr = sendPrepWrites ++ tl := by
  rw [send_message, Option.map_eq_some'] at h
  obtain ⟨⟨b', tl⟩, hrec, heq⟩ := h
  simp only [Prod.mk.injEq] at heq
  obtain ⟨hb, htr⟩ := heq
  subst hb
  exact ⟨tl, hrec, htr.symm⟩

/-- The value the reference computation assigns to `frf`. -/
lemma frf_val : frf = 7208755 := by
  norm_num [frf, fstep]
  rfl

/-! The claims. -/

/-- Claim C1 is false as stated: in a transmit session whose third status
poll observes the FIFO-overrun bit (after two chunks were already written
and Transmit mode armed), `send_message` aborts and returns failure, but the
last write to the mode register 0x01 before returning is the Transmit value
0x03, not Standby 0x01 — the code returns at src/main.py:173 without any
cleanup write. -/
theorem C1_counterexample :
    send_message irqOverrun3 dataLong 10 = some (false, trOverrun3) ∧
    endsWithOverrunPoll trOverrun3 = true ∧
    lastModeWrite trOverrun3 = some [0x03] ∧
    ¬ lastModeWrite trOverrun3 = some [0x01] := by
  refine ⟨by decide, by decide, by decide, by decide⟩

/-- Claim C1 (amended): whenever `send_message` observes the overrun bit it
aborts at once and returns failure, with no bus access of any kind after the
overrun observation — the trace ends with the overrun-observing poll
iteration's eight IRQ reads, the fourth carrying the overrun bit, and no
write of any kind follows them; the chip is NOT returned to Standby on this
exit path — the mode register's last write is the Standby 0x01 set during
preparation exactly when overrun struck before the first chunk write, and
the Transmit value 0x03 otherwise. -/
theorem C1_overrun_abort (irq : Nat → Nat) (data : List Nat) (fuel : Nat)
    (tr : List Event) (h : send_message irq data fuel = some (false, tr)) :
    endsWithOverrunPoll tr = true ∧
    lastModeWrite tr =
      (if countDataWrites tr = 0 then some [0x01] else some [0x03]) := by
  obtain ⟨tl, hloop, rfl⟩ := send_message_eq irq data fuel false tr h
  obtain ⟨h1, h2, h3, h4⟩ := sendLoop_false irq data fuel 0 true 0 tl hloop
  have hm := sendLoop_modeWrites irq data fuel 0 true 0 false tl hloop
  refine ⟨endsWithOverrunPoll_append _ _ h2 h1, ?_⟩
  have hcd : countDataWrites (sendPrepWrites ++ tl) = countDataWrites tl := by
    rw [countDataWrites_append, countDataWrites_prep, Nat.zero_add]
  rw [lastModeWrite, List.filterMap_append, filterMapMode_prep, hm, hcd]
  by_cases hd : countDataWrites tl = 0
  · rw [if_neg (by simp [hd]), if_pos hd]
    rfl
  · rw [if_pos ⟨rfl, hd⟩, if_neg hd]
    rfl

/-- Witness for C1's amended theorem at the concrete overrun-on-third-poll
run (two chunks written, so the last mode write is Transmit 0x03). -/
theorem C1_overrun_abort_witness :
    send_message irqOverrun3 dataLong 10 = some (false, trOverrun3) ∧
    (endsWithOverrunPoll trOverrun3 = true ∧
      lastModeWrite trOverrun3 =
        (if countDataWrites trOverrun3 = 0 then some [0x01] else some [0x03])) :=
  ⟨by decide, C1_overrun_abort irqOverrun3 dataLong 10 trOverrun3 (by decide)⟩

/-- Claim C2: if the byte read from the chip-version register 0x42 is not
0x12, initialization stops at once — a ConfigurationFailure in the spec's
taxonomy (the code logs "Invalid board version" and returns,
src/main.py:90-93) — and the bus trace is exactly the version read: no mode,
modem, or any other register is written after the failed check. -/
theorem C2_version_mismatch_hard_stop (v m : Nat) (h : v ≠ 0x12) :
    (boardInit v m).result = .invalidVersion ∧
    ((boardInit v m).result).isConfigurationFailure = true ∧
    (boardInit v m).trace = [Event.read 0x42 v] ∧
    (boardInit v m).trace.countP (fun e => isWrite e) = 0 := by
  have hb : boardInit v m = ⟨.invalidVersion, [Event.read 0x42 v]⟩ := by
    unfold boardInit
    rw [if_pos h]
  rw [hb]
  exact ⟨rfl, rfl, rfl, rfl⟩

/-- Witness for C2 at the spec's scenario: version byte 0x99. -/
theorem C2_version_mismatch_hard_stop_witness :
    (0x99 : Nat) ≠ 0x12 ∧
    ((boardInit 0x99 0x08).result = .invalidVersion ∧
      ((boardInit 0x99 0x08).result).isConfigurationFailure = true ∧
      (boardInit 0x99 0x08).trace = [Event.read 0x42 0x99] ∧
      (boardInit 0x99 0x08).trace.countP (fun e => isWrite e) = 0) :=
  ⟨by decide, C2_version_mismatch_hard_stop 0x99 0x08 (by decide)⟩

/-- Claim C3: initialization writes mode 0x08 (Sleep + FSK) to the mode
register and reads it back; if the bus returns any different value the run
fails (the `ValueError` of src/main.py:105, a ConfigurationFailure in the
spec's taxonomy), and if it returns the written value the run verifies and
proceeds to completion. -/
theorem C3_mode_readback_verification (m : Nat) (h : m ≠ 0x08) :
    (boardInit 0x12 m).result = .opModeFailure ∧
    ((boardInit 0x12 m).result).isConfigurationFailure = true ∧
    (boardInit 0x12 0x08).result = .ok := by
  have hres : boardInit 0x12 m =
      ⟨.opModeFailure,
        [Event.read 0x42 0x12, Event.write 0x01 [0x08], Event.read 0x01 m]⟩ := by
    unfold boardInit
    rw [if_neg (by decide : ¬ ((0x12 : Nat) ≠ 0x12)), if_pos h]
  rw [hres]
  exact ⟨rfl, rfl, by decide⟩

/-- Witness for C3 at a fake bus returning 0x99 from the read-back. -/
theorem C3_mode_readback_verification_witness :
    (0x99 : Nat) ≠ 0x08 ∧
    ((boardInit 0x12 0x99).result = .opModeFailure ∧
      ((boardInit 0x12 0x99).result).isConfigurationFailure = true ∧
      (boardInit 0x12 0x08).result = .ok) :=
  ⟨by decide, C3_mode_readback_verification 0x99 (by decide)⟩

/-- Claim C4: in every completed transmit session the Transmit-arming write
(0x03 to the mode register) occurs exactly once if any chunk was written to
the FIFO data register and never otherwise, and it is always strictly
preceded by a FIFO data write — never issued before payload data has been
queued. -/
theorem C4_transmit_armed_once_after_first_chunk (irq : Nat → Nat)
    (data : List Nat) (fuel : Nat) (b : Bool) (tr : List Event)
    (h : send_message irq data fuel = some (b, tr)) :
    countTxArm tr = (if countDataWrites tr = 0 then 0 else 1) ∧
    armedOnlyAfterData false tr = true := by
  obtain ⟨tl, hloop, rfl⟩ := send_message_eq irq data fuel b tr h
  obtain ⟨h1, h2⟩ := sendLoop_txArm irq data fuel 0 true 0 b tl hloop
  constructor
  · rw [countTxArm_append, countDataWrites_append, countTxArm_prep,
      countDataWrites_prep]
    simpa using h1
  · rw [armedOnlyAfterData_append, armedOnlyAfterData_prep,
      any_isDataWrite_prep]
    simpa using h2

/-- Witness for C4 at a 20-byte payload streamed against an all-zero bus. -/
theorem C4_transmit_armed_once_after_first_chunk_witness :
    send_message irqZero dataTwenty 3 = some (true, trTwenty) ∧
    (countTxArm trTwenty = (if countDataWrites trTwenty = 0 then 0 else 1) ∧
      armedOnlyAfterData false trTwenty = true) :=
  ⟨by decide,
    C4_transmit_armed_once_after_first_chunk irqZero dataTwenty 3 true trTwenty
      (by decide)⟩

/-- Claim C5: once the streaming loop observes the overrun bit it aborts at
once: the trace ends with that poll iteration's eight IRQ reads (the fourth
carrying the overrun bit), so no FIFO data-register write is issued in that
iteration or ever afterwards in the session. -/
theorem C5_no_data_write_after_overrun (irq : Nat → Nat) (data : List Nat)
    (fuel : Nat) (tr : List Event)
    (h : send_message irq data fuel = some (false, tr)) :
    endsWithOverrunPoll tr = true := by
  obtain ⟨tl, hloop, rfl⟩ := send_message_eq irq data fuel false tr h
  obtain ⟨h1, h2, _, _⟩ := sendLoop_false irq data fuel 0 true 0 tl hloop
  exact endsWithOverrunPoll_append _ _ h2 h1

/-- Witness for C5 at the concrete overrun-on-third-poll run. -/
theorem C5_no_data_write_after_overrun_witness :
    send_message irqOverrun3 dataLong 10 = some (false, trOverrun3) ∧
    endsWithOverrunPoll trOverrun3 = true :=
  ⟨by decide,
    C5_no_data_write_after_overrun irqOverrun3 dataLong 10 trOverrun3
      (by decide)⟩

/-- Claim C6: when a payload streams to completion, the chunks written to
the FIFO data register concatenate to exactly the payload (covering it
left-to-right with no byte dropped or repeated), their sizes sum to its
length, and every chunk except possibly the last is exactly 16 bytes. -/
theorem C6_chunk_coverage (irq : Nat → Nat) (data : List Nat) (fuel : Nat)
    (tr : List Event) (h : send_message irq data fuel = some (true, tr)) :
    (dataWritePayloads tr).flatten = data ∧
    ((dataWritePayloads tr).map List.length).sum = data.length ∧
    (dataWritePayloads tr).dropLast.all (fun c => c.length == 16) = true := by
  obtain ⟨tl, hloop, rfl⟩ := send_message_eq irq data fuel true tr h
  obtain ⟨h1, h2, h3⟩ := sendLoop_true irq data fuel 0 true 0 tl hloop
  rw [List.drop_zero] at h1
  rw [dataWritePayloads_append, dataWritePayloads_prep, List.nil_append]
  refine ⟨h1, ?_, h3⟩
  rw [← h1, List.length_flatten]

/-- Witness for C6 at the 33-byte payload (chunks 16, 16, 1). -/
theorem C6_chunk_coverage_witness :
    send_message irqZero dataLong 4 = some (true, trThree) ∧
    ((dataWritePayloads trThree).flatten = dataLong ∧
      ((dataWritePayloads trThree).map List.length).sum = dataLong.length ∧
      (dataWritePayloads trThree).dropLast.all (fun c => c.length == 16) = true) :=
  ⟨by decide, C6_chunk_coverage irqZero dataLong 4 trThree (by decide)⟩

/-- Claim C7: `frf` equals `round(target_hz / step_hz)` for the fixed
constants (target 439.9875 MHz, step 32 MHz / 2^19) — Python's `int()`
truncation agrees with rounding here because the exact quotient is
7208755.2 — and the decomposition into the three 8-bit register bytes
written to 0x06/0x07/0x08 reassembles via `(msb<<16)|(mid<<8)|lsb` to
exactly `frf`. -/
theorem C7_frf_round_and_reassembly :
    (frf : ℤ) = round ((439987500 : ℚ) / ((32000000 : ℚ) / 2 ^ 19)) ∧
    ((((frf >>> 16) &&& 0xFF) <<< 16) |||
      (((frf >>> 8) &&& 0xFF) <<< 8) ||| (frf &&& 0xFF)) = frf := by
  constructor
  · rw [frf_val]
    norm_num [round_eq]
  · rw [frf_val]
    decide

/-- Claim C8 is false as stated: a session that performs exactly one poll
iteration (one chunk write, then the loop exits) issues eight separate
reads of the IRQ register 0x3F in that iteration — one per bit position of
the list comprehension at src/main.py:166 — not a single 8-bit snapshot
read. -/
theorem C8_counterexample :
    send_message irqZero [5] 2 =
      some (true, sendPrepWrites ++
        (pollReads irqZero 0 ++
          [Event.write 0x00 [5], Event.write 0x01 [0x03]])) ∧
    countReads (pollReads irqZero 0) = 8 ∧
    countDataWrites
      (pollReads irqZero 0 ++
        [Event.write 0x00 [5], Event.write 0x01 [0x03]]) = 1 := by
  refine ⟨by decide, by decide, by decide⟩

/-- Claim C8 (amended): on every poll iteration the status flags are
obtained fresh from eight separate single-byte reads of the IRQ register
0x3F — the k-th read of a session returns the bus's k-th response, so no
value is ever cached or reused across (or within) iterations — with
FIFO-full decoded as bit 7 of the iteration's first read, FIFO-level as bit
5 of its third, and FIFO-overrun as bit 4 of its fourth. -/
theorem C8_flags_eight_reads_fresh (irq : Nat → Nat) (data : List Nat)
    (fuel : Nat) (b : Bool) (tr : List Event)
    (h : send_message irq data fuel = some (b, tr)) :
    readValues tr = (List.range (countReads tr)).map irq ∧
    countReads tr % 8 = 0 ∧ readsOnly3F tr = true := by
  obtain ⟨tl, hloop, rfl⟩ := send_message_eq irq data fuel b tr h
  obtain ⟨h1, h2, h3⟩ := sendLoop_reads irq data fuel 0 true 0 b tl hloop
  have hr : readValues (sendPrepWrites ++ tl) = readValues tl := by
    rw [readValues_append, readValues_prep, List.nil_append]
  have hc : countReads (sendPrepWrites ++ tl) = countReads tl := by
    rw [countReads_append, countReads_prep, Nat.zero_add]
  rw [hr, hc]
  refine ⟨?_, h2, ?_⟩
  · rw [h1]
    simp
  · rw [readsOnly3F_append, readsOnly3F_prep, h3]
    rfl

/-- Witness for C8's amended theorem at the one-byte-payload run. -/
theorem C8_flags_eight_reads_fresh_witness :
    send_message irqZero [5] 2 = some (true, trOneByte) ∧
    (readValues trOneByte = (List.range (countReads trOneByte)).map irqZero ∧
      countReads trOneByte % 8 = 0 ∧ readsOnly3F trOneByte = true) :=
  ⟨by decide,
    C8_flags_eight_reads_fresh irqZero [5] 2 true trOneByte (by decide)⟩

/-- Claim C9: with an empty encoded payload, `send_message` returns success
immediately after the preparation writes: no status poll is read, no byte
is written to the FIFO data register, Transmit mode is never commanded, and
the last mode-register write is the Standby 0x01 set during preparation. -/
theorem C9_empty_payload_success (irq : Nat → Nat) (fuel : Nat) :
    send_message irq [] (fuel + 1) = some (true, sendPrepWrites) ∧
    countReads sendPrepWrites = 0 ∧ countDataWrites sendPrepWrites = 0 ∧
    countTxArm sendPrepWrites = 0 ∧
    lastModeWrite sendPrepWrites = some [0x01] := by
  refine ⟨?_, rfl, rfl, rfl, by decide⟩
  simp [send_message, sendLoop]

/-- Claim C10: successful initialization ends by writing the single byte 12
to the FIFO data register 0x00 immediately after the three carrier-frequency
registers (its last four write targets are 0x06, 0x07, 0x08, 0x00), leaving
one byte queued in the transmit FIFO, and every register it writes is in
the spec's register map. -/
theorem C10_init_trailing_fifo_write :
    (boardInit 0x12 0x08).result = .ok ∧
    initOkTrace.getLast? = some (Event.write 0x00 [12]) ∧
    countDataWrites initOkTrace = 1 ∧
    (writeRegs initOkTrace).drop ((writeRegs initOkTrace).length - 4) =
      [0x06, 0x07, 0x08, 0x00] ∧
    (writeRegs initOkTrace).all (fun r => registerMap.contains r) = true := by
  refine ⟨by decide, by decide, by decide, by decide, by decide⟩
